import Mathlib

/-!
Shallow embedding of the AuthLedd OAuth gateway (`auth_server.py` and
`funcs/auth_store.py`).

Python strings are Lean `String`s.  The fragment of
`urllib.parse.urlsplit` that `_is_allowed_redirect_url` depends on
(WHATWG control-character stripping, scheme extraction, netloc
extraction, the IPv6-bracket `ValueError`) is modelled over `List Char`,
following CPython's `urllib/parse.py`.

MongoDB collections are lists in insertion order: `insert_one` appends,
`find_one` returns the first match, `find_one_and_delete` / `delete_one`
remove the first match, and a unique index makes a duplicate insert fail
(modelled as `none`, standing for `DuplicateKeyError`).

Ambient configuration (`os.getenv`) is passed explicitly as a `Config`
record of optional environment values; request data is passed as a
record of the query arguments, headers and cookies each handler reads.
Timestamps (`datetime.now`) are `Nat`s supplied by the caller, and the
two outbound HTTP calls of the callback handler are supplied as `Except`
outcomes (an `Oracle`), since their results are decided by the identity
provider.
-/

namespace Leddweb

/-- Python truthiness of an optional string: `None` and `""` are falsy. -/
def truthy : Option String → Bool
  | none => false
  | some s => s != ""

/-- Python `a or b` for optional strings (`None` and `""` are falsy). -/
def pyOr (a b : Option String) : Option String :=
  match a with
  | some s => if s = "" then b else some s
  | none => b

/-- Python `str.lower` on one character (ASCII fragment: A-Z map to a-z). -/
def pyLowerChar (c : Char) : Char :=
  if 65 ≤ c.toNat && c.toNat ≤ 90 then Char.ofNat (c.toNat + 32) else c

def pyLowerL (l : List Char) : List Char := l.map pyLowerChar

/-- Python `str.lower` (ASCII fragment). -/
def pyLower (s : String) : String := ⟨pyLowerL s.data⟩

/-- Python `str.isspace` characters stripped by `str.strip()` (ASCII part). -/
def isPySpace (c : Char) : Bool :=
  c == ' ' || c == '\t' || c == '\n' || c == '\r' || c == '\x0b' || c == '\x0c'

/-- Python `str.strip()` (ASCII whitespace fragment). -/
def pyStrip (s : String) : String :=
  ⟨((s.data.dropWhile isPySpace).reverse.dropWhile isPySpace).reverse⟩

/-- `l` starts with the prefix `pre` (Python `str.startswith`). -/
def listStartsWith (l pre : List Char) : Bool :=
  match pre with
  | [] => true
  | b :: bs =>
    match l with
    | [] => false
    | a :: as => a == b && listStartsWith as bs
termination_by structural pre

/-- Python `str.endswith`: `suf` is a suffix of `s`. -/
def pyEndsWith (s suf : String) : Bool :=
  listStartsWith s.data.reverse suf.data.reverse

/-- Python `str.split(",")`: split at every comma, keeping empty parts. -/
def splitCommaAux : List Char → List Char → List (List Char)
  | [], acc => [acc.reverse]
  | c :: t, acc =>
    if c = ',' then acc.reverse :: splitCommaAux t [] else splitCommaAux t (c :: acc)

/-- `needle` occurs as a contiguous substring of `hay` (Python `in`). -/
def hasSub : List Char → List Char → Bool
  | hay, needle =>
    if listStartsWith hay needle then true
    else
      match hay with
      | [] => false
      | _ :: t => hasSub t needle

/-! ## urllib.parse.urlsplit (scheme and netloc fragment) -/

/-- `urlsplit` first drops leading `_WHATWG_C0_CONTROL_OR_SPACE`
characters (codepoints up to 0x20) from the URL. -/
def lstripC0 : List Char → List Char
  | [] => []
  | c :: cs => if c.toNat ≤ 32 then lstripC0 cs else c :: cs

/-- `urlsplit` then removes `_UNSAFE_URL_BYTES_TO_REMOVE` = tab, CR, LF
anywhere in the URL. -/
def keepChar (c : Char) : Bool := !(c == '\t' || c == '\r' || c == '\n')

def dropTabCrLf (l : List Char) : List Char := l.filter keepChar

/-- `scheme_chars` of urllib: ASCII letters, digits, `+`, `-`, `.`. -/
def isSchemeChar (c : Char) : Bool :=
  (65 ≤ c.toNat && c.toNat ≤ 90) || (97 ≤ c.toNat && c.toNat ≤ 122) ||
    (48 ≤ c.toNat && c.toNat ≤ 57) || c == '+' || c == '-' || c == '.'

/-- `url[0].isascii() and url[0].isalpha()`. -/
def isAsciiAlpha (c : Char) : Bool :=
  (65 ≤ c.toNat && c.toNat ≤ 90) || (97 ≤ c.toNat && c.toNat ≤ 122)

/-- Walk the characters after the first one, looking for the first `:`;
succeed only if every character before it is a scheme character (this is
`url.find(':')` plus the `for c in url[1:i]` check of `urlsplit`). -/
def schemeSplitAux : List Char → Option (List Char × List Char)
  | [] => none
  | c :: rest =>
    if c == ':' then some ([], rest)
    else if isSchemeChar c then
      match schemeSplitAux rest with
      | some (s, r) => some (c :: s, r)
      | none => none
    else none

/-- Scheme extraction of `urlsplit`: the text before the first `:` is the
scheme when it starts with an ASCII letter and continues with scheme
characters; the scheme is lowercased and the `:` consumed.  Otherwise the
scheme is empty and the URL is untouched. -/
def extractScheme (url : List Char) : List Char × List Char :=
  match url with
  | [] => ([], [])
  | c0 :: rest =>
    if isAsciiAlpha c0 then
      match schemeSplitAux rest with
      | some (s, r) => (pyLowerL (c0 :: s), r)
      | none => ([], c0 :: rest)
    else ([], c0 :: rest)

/-- `_splitnetloc` stops the netloc at the first `/`, `?` or `#`. -/
def notDelim (c : Char) : Bool := !(c == '/' || c == '?' || c == '#')

/-- The `('[' in netloc) != (']' in netloc)` check of `urlsplit`:
`Except.error ()` models the raised `ValueError`, otherwise the
scheme/netloc pair is returned. -/
def bracketCheck (scheme netloc : List Char) : Except Unit (String × String) :=
  if (netloc.any (fun c => c == '[') && !netloc.any (fun c => c == ']')) ||
      (netloc.any (fun c => c == ']') && !netloc.any (fun c => c == '[')) then
    Except.error ()
  else Except.ok (⟨scheme⟩, ⟨netloc⟩)

/-- Netloc extraction of `urlsplit` after scheme splitting:
`url[:2] == '//'` is the `listStartsWith` test, and `_splitnetloc` takes
up to the first `/`, `?` or `#`. -/
def parseAux (sr : List Char × List Char) : Except Unit (String × String) :=
  if listStartsWith sr.2 ['/', '/'] then
    bracketCheck sr.1 ((sr.2.drop 2).takeWhile notDelim)
  else Except.ok (⟨sr.1⟩, "")

/-- Scheme and netloc of `urllib.parse.urlparse`. -/
def parseSchemeNetloc (url : String) : Except Unit (String × String) :=
  parseAux (extractScheme (dropTabCrLf (lstripC0 url.data)))

/-! ## Redirect validator (`_is_allowed_redirect_url`, `_pick_continue_url`) -/

/-- `_allowed_return_hosts`: split the `AUTH_ALLOWED_RETURN_HOSTS` value
on `,`, strip and lowercase each part, drop empties. -/
def allowed_return_hosts (raw : String) : List String :=
  (((splitCommaAux raw.data []).map (fun h => pyLower (pyStrip ⟨h⟩))).filter (fun h => h != ""))

/-- `p.netloc.split(":")[0].lower()`. -/
def hostOfNetloc (netloc : String) : String :=
  ⟨pyLowerL (netloc.data.takeWhile (fun c => !(c == ':')))⟩

/-- `_is_allowed_redirect_url`.  `hosts` is the processed allowed-host
list (`allowed_return_hosts` applied to the env value, as
`_allowed_return_hosts()` computes it).  The `try`/`except` of the
source turns a parse `ValueError` into `false`. -/
def is_allowed_redirect_url (url : String) (hosts : List String) : Bool :=
  match parseSchemeNetloc url with
  | Except.error _ => false
  | Except.ok sn =>
    if sn.1 == "" || sn.2 == "" then false
    else
      let host := hostOfNetloc sn.2
      hosts.any (fun allowed => host == allowed || pyEndsWith host ("." ++ allowed))

/-- `_pick_continue_url`.  The three inputs are the `continue` query
argument, the `X-Continue` header and the `Referer` header, in the
priority order of the source.  `hosts` as above; CPython would raise
`IndexError` on `hosts[0]` were the list empty, so `headD ""` only
stands for `hosts[0]` under the nonemptiness hypothesis the theorems
carry. -/
def pick_continue_url (hosts : List String) (continueArg xContinue referer : Option String) :
    String :=
  match pyOr continueArg (pyOr xContinue referer) with
  | none => "https://" ++ hosts.headD "" ++ "/me"
  | some p =>
    if p = "" then "https://" ++ hosts.headD "" ++ "/me"
    else if listStartsWith p.data ['/'] && !listStartsWith p.data ['/', '/'] then
      "https://" ++ hosts.headD "" ++ p
    else if is_allowed_redirect_url p hosts then p
    else "https://" ++ hosts.headD "" ++ "/me"

/-- A well-formed configured host name: lowercase ASCII letters, digits,
dots and hyphens, nonempty.  The safety theorems assume the deployed
`AUTH_ALLOWED_RETURN_HOSTS` entries have this shape (the default
`ledd.live` does). -/
def saneHostChar (c : Char) : Bool :=
  (97 ≤ c.toNat && c.toNat ≤ 122) || (48 ≤ c.toNat && c.toNat ≤ 57) || c == '.' || c == '-'

def saneHost (h : String) : Bool := h != "" && h.data.all saneHostChar

/-! ## funcs/auth_store.py -/

/-- A document of the `oauth_states` collection
(`{"state": ..., "continue": ..., "created_at": ...}`). -/
structure StateDoc where
  state : String
  continue_to : Option String
  created_at : Nat
deriving DecidableEq

/-- The `token_info` dict built in `discord_callback` out of the token
endpoint's JSON (`token.get(...)` for each field). -/
structure TokenInfo where
  access_token : Option String
  refresh_token : Option String
  expires_in : Option Nat
  scope : Option String
  token_type : Option String
deriving DecidableEq

/-- The fields of the Discord `/users/@me` JSON that
`upsert_discord_user` reads (`discord_user.get(...)`); `id` is already
the string `str(discord_user.get("id"))`. -/
structure DiscordUser where
  id : String
  username : Option String
  global_name : Option String
  avatar : Option String
  discriminator : Option String
deriving DecidableEq

/-- A document of the `users` collection. -/
structure UserDoc where
  discord_id : String
  username : Option String
  global_name : Option String
  avatar : Option String
  discriminator : Option String
  updated_at : Nat
  token : TokenInfo
  created_at : Nat
deriving DecidableEq

/-- A document of the `sessions` collection. -/
structure SessionDoc where
  session_id : String
  discord_id : String
  created_at : Nat
deriving DecidableEq

/-- `save_oauth_state`: `insert_one` of the state document.  The unique
index `uniq_state` makes a duplicate token fail (`none`). -/
def save_oauth_state (states : List StateDoc) (state : String) (continue_to : Option String)
    (now : Nat) : Option (List StateDoc) :=
  if states.any (fun d => d.state == state) then none
  else some (states ++ [⟨state, continue_to, now⟩])

/-- `consume_oauth_state`: `find_one_and_delete({"state": state})` —
atomically return the first matching document (if any) and the
collection with that document removed. -/
def consume_oauth_state (states : List StateDoc) (state : String) :
    Option StateDoc × List StateDoc :=
  match states with
  | [] => (none, [])
  | d :: rest =>
    if d.state = state then (some d, rest)
    else
      let r := consume_oauth_state rest state
      (r.1, d :: r.2)

/-- `find_one({"discord_id": id})` on the `users` collection. -/
def find_user (users : List UserDoc) (id : String) : Option UserDoc :=
  users.find? (fun u => u.discord_id == id)

/-- The `$set` document of `upsert_discord_user` applied to an existing
user document (`created_at` is not in `$set`). -/
def setProfile (du : DiscordUser) (tok : TokenInfo) (now : Nat) (u : UserDoc) : UserDoc :=
  { u with
    discord_id := du.id, username := du.username, global_name := du.global_name,
    avatar := du.avatar, discriminator := du.discriminator, updated_at := now, token := tok }

/-- `update_one(filter, {"$set": ...})` without upsert: rewrite the first
matching document; `none` when nothing matched. -/
def mongoUpdateFirst (users : List UserDoc) (id : String) (f : UserDoc → UserDoc) :
    Option (List UserDoc) :=
  match users with
  | [] => none
  | u :: rest =>
    if u.discord_id = id then some (f u :: rest)
    else (mongoUpdateFirst rest id f).map (u :: ·)

/-- The document a Mongo upsert inserts when no document matches: the
`$set` profile together with the `$setOnInsert` field `created_at`. -/
def newUserDoc (du : DiscordUser) (tok : TokenInfo) (now : Nat) : UserDoc :=
  { discord_id := du.id, username := du.username, global_name := du.global_name,
    avatar := du.avatar, discriminator := du.discriminator, updated_at := now,
    token := tok, created_at := now }

/-- `upsert_discord_user`: `update_one(..., {"$set": profile,
"$setOnInsert": {"created_at": now}}, upsert=True)` followed by
`find_one({"discord_id": discord_id})`. -/
def upsert_discord_user (users : List UserDoc) (du : DiscordUser) (tok : TokenInfo) (now : Nat) :
    Option UserDoc × List UserDoc :=
  let users' :=
    match mongoUpdateFirst users du.id (setProfile du tok now) with
    | some us => us
    | none => users ++ [newUserDoc du tok now]
  (find_user users' du.id, users')

/-- `new_session`: `insert_one({"session_id": sid, "discord_id": ...})`;
`sid` is the freshly generated `secrets.token_urlsafe(32)` value, passed
in by the caller.  The unique index `uniq_session_id` makes a duplicate
insert fail (`none`). -/
def new_session (sessions : List SessionDoc) (sid discord_id : String) (now : Nat) :
    Option (String × List SessionDoc) :=
  if sessions.any (fun s => s.session_id == sid) then none
  else some (sid, sessions ++ [⟨sid, discord_id, now⟩])

/-- `find_one({"session_id": sid})` on the `sessions` collection. -/
def find_session (sessions : List SessionDoc) (sid : String) : Option SessionDoc :=
  sessions.find? (fun s => s.session_id == sid)

/-- `get_user_by_session`: resolve the session, then the user it names. -/
def get_user_by_session (sessions : List SessionDoc) (users : List UserDoc) (sid : String) :
    Option UserDoc :=
  match find_session sessions sid with
  | none => none
  | some sess => find_user users sess.discord_id

/-- `delete_session`: `delete_one({"session_id": sid})`, reporting
`deleted_count > 0`. -/
def delete_session (sessions : List SessionDoc) (sid : String) : Bool × List SessionDoc :=
  match sessions with
  | [] => (false, [])
  | s :: rest =>
    if s.session_id = sid then (true, rest)
    else
      let r := delete_session rest sid
      (r.1, s :: r.2)

/-! ## auth_server.py handlers -/

/-- The environment variables the handlers read (`os.getenv`; `none` is
an unset variable). -/
structure Config where
  discord_client_id : Option String
  discord_client_secret : Option String
  auth_cookie_name : Option String
  auth_cookie_domain : Option String
  auth_cookie_secure : Option String
  auth_cookie_samesite : Option String
  auth_allowed_return_hosts : Option String
deriving DecidableEq

/-- The keyword cookie attributes of `_cookie_settings()`. -/
structure CookieOpts where
  domain : String
  secure : Bool
  httponly : Bool
  samesite : String
  path : String
deriving DecidableEq

/-- `_cookie_settings()`. -/
def cookie_settings (cfg : Config) : CookieOpts :=
  { domain := cfg.auth_cookie_domain.getD ".ledd.live"
    secure := pyLower (cfg.auth_cookie_secure.getD "true") == "true"
    httponly := true
    samesite := cfg.auth_cookie_samesite.getD "Lax"
    path := "/" }

/-- `os.getenv("AUTH_COOKIE_NAME", "ledd_auth")`. -/
def cookieName (cfg : Config) : String := cfg.auth_cookie_name.getD "ledd_auth"

/-- The processed allowed-host list of the configuration
(`_allowed_return_hosts()`). -/
def hostsOf (cfg : Config) : List String :=
  allowed_return_hosts (cfg.auth_allowed_return_hosts.getD "ledd.live")

/-- One `Set-Cookie` emitted through `response.add_cookie`; `expires`
is an epoch timestamp in seconds (1970-01-01 UTC is `0`) and absent
fields were not passed. -/
structure CookieSet where
  name : String
  value : String
  opts : CookieOpts
  expires : Option Nat
  max_age : Option Nat
deriving DecidableEq

/-- A JSON value occurring in the handlers' response bodies. -/
inductive JVal where
  | s (v : String)
  | b (v : Bool)
  | null
deriving DecidableEq

/-- `user.get(...)` of an optional profile field, as a JSON value. -/
def optJ : Option String → JVal
  | some v => JVal.s v
  | none => JVal.null

/-- The responses the handlers build: `sanic.response.json` (with its
status), `html` and `redirect`, each carrying its added cookies. -/
inductive Response where
  | jsonResp (status : Nat) (body : List (String × JVal)) (cookies : List CookieSet)
  | htmlResp (body : String)
  | redirectResp (location : String) (cookies : List CookieSet)
deriving DecidableEq

/-- `response.add_cookie(...)`: attach one more cookie to a response. -/
def addCookie (r : Response) (c : CookieSet) : Response :=
  match r with
  | Response.jsonResp s b cs => Response.jsonResp s b (cs ++ [c])
  | Response.htmlResp b => Response.htmlResp b
  | Response.redirectResp l cs => Response.redirectResp l (cs ++ [c])

/-- The cookies attached to a response. -/
def Response.cookiesOf : Response → List CookieSet
  | Response.jsonResp _ _ cs => cs
  | Response.htmlResp _ => []
  | Response.redirectResp _ cs => cs

/-- The JSON body of a response (empty for html/redirect responses). -/
def Response.bodyOf : Response → List (String × JVal)
  | Response.jsonResp _ b _ => b
  | Response.htmlResp _ => []
  | Response.redirectResp _ _ => []

/-- A non-error response: a redirect, an html page, or JSON with
status 200. -/
def Response.isSuccess : Response → Bool
  | Response.jsonResp s _ _ => s == 200
  | Response.htmlResp _ => true
  | Response.redirectResp _ _ => true

/-- The request data the embedded handlers read: query arguments
(`request.args.get`), headers (`request.headers.get`) and cookies
(`request.cookies`, an association list in order). -/
structure Req where
  args_code : Option String
  args_state : Option String
  args_error : Option String
  args_continue : Option String
  header_x_continue : Option String
  header_referer : Option String
  header_accept : Option String
  cookies : List (String × String)
deriving DecidableEq

/-- `request.cookies.get(name)`. -/
def getCookie (cookies : List (String × String)) (name : String) : Option String :=
  match cookies.find? (fun kv => kv.1 == name) with
  | some kv => some kv.2
  | none => none

/-- `_extract_session_id`. -/
def extract_session_id (cfg : Config) (req : Req) : Option String :=
  getCookie req.cookies (cookieName cfg)

/-- The three MongoDB collections the auth server uses. -/
structure World where
  states : List StateDoc
  users : List UserDoc
  sessions : List SessionDoc
deriving DecidableEq

/-- The per-request nondeterminism of `discord_callback`: the outcome of
the two outbound identity-provider calls (`Except.error ()` is a raised
exception: non-2xx response or transport failure), the fresh
`secrets.token_urlsafe(32)` session id, and the current time. -/
structure Oracle where
  tokenRes : Except Unit TokenInfo
  userRes : Except Unit DiscordUser
  freshSid : String
  now : Nat

/-- `discord_callback`.  The `try` of the source starts after state
consumption: any failure inside it (upstream call raised, missing
`access_token` key, `user_doc` unexpectedly `None`, duplicate session
id) is caught and mapped to the generic 500 JSON error, with every store
mutation made before the failure kept. -/
def discord_callback (cfg : Config) (req : Req) (o : Oracle) (w : World) : Response × World :=
  if !(truthy cfg.discord_client_id && truthy cfg.discord_client_secret) then
    (Response.jsonResp 500 [("error", JVal.s "DISCORD_CLIENT_ID/SECRET not configured")] [], w)
  else if truthy req.args_error then
    (Response.htmlResp ("<h3>Discord error: " ++ (req.args_error.getD "") ++ "</h3>"), w)
  else if !(truthy req.args_code && truthy req.args_state) then
    (Response.jsonResp 400 [("error", JVal.s "Missing code or state")] [], w)
  else
    let st := req.args_state.getD ""
    let consumed := consume_oauth_state w.states st
    let w1 : World := { w with states := consumed.2 }
    match consumed.1 with
    | none => (Response.jsonResp 400 [("error", JVal.s "Invalid or expired state")] [], w1)
    | some state_doc =>
      match o.tokenRes with
      | Except.error _ => (Response.jsonResp 500 [("error", JVal.s "OAuth flow failed")] [], w1)
      | Except.ok token =>
        match token.access_token with
        | none => (Response.jsonResp 500 [("error", JVal.s "OAuth flow failed")] [], w1)
        | some _ =>
          match o.userRes with
          | Except.error _ =>
            (Response.jsonResp 500 [("error", JVal.s "OAuth flow failed")] [], w1)
          | Except.ok userinfo =>
            let up := upsert_discord_user w1.users userinfo token o.now
            let w2 : World := { w1 with users := up.2 }
            match up.1 with
            | none => (Response.jsonResp 500 [("error", JVal.s "OAuth flow failed")] [], w2)
            | some user_doc =>
              match new_session w2.sessions o.freshSid user_doc.discord_id o.now with
              | none => (Response.jsonResp 500 [("error", JVal.s "OAuth flow failed")] [], w2)
              | some sr =>
                let w3 : World := { w2 with sessions := sr.2 }
                let hosts := hostsOf cfg
                let continue_url :=
                  match state_doc.continue_to with
                  | some stored =>
                    if is_allowed_redirect_url stored hosts then stored
                    else
                      pick_continue_url hosts req.args_continue req.header_x_continue
                        req.header_referer
                  | none =>
                    pick_continue_url hosts req.args_continue req.header_x_continue
                      req.header_referer
                (Response.redirectResp continue_url
                  [⟨cookieName cfg, sr.1, cookie_settings cfg, none, none⟩], w3)

/-- The `/me` handler. -/
def me (cfg : Config) (req : Req) (w : World) : Response :=
  match extract_session_id cfg req with
  | none => Response.jsonResp 401 [("error", JVal.s "Not authenticated")] []
  | some sid =>
    if sid = "" then Response.jsonResp 401 [("error", JVal.s "Not authenticated")] []
    else
      match get_user_by_session w.sessions w.users sid with
      | none => Response.jsonResp 401 [("error", JVal.s "Invalid session")] []
      | some user =>
        Response.jsonResp 200
          [("discord_id", JVal.s user.discord_id), ("username", optJ user.username),
            ("global_name", optJ user.global_name), ("avatar", optJ user.avatar)] []

/-- The cookie-clearing `add_cookie(cookie_name, "",
expires=datetime(1970, 1, 1), max_age=0, **cookie_opts)` of the logout
handlers. -/
def clearCookie (cfg : Config) : CookieSet :=
  ⟨cookieName cfg, "", cookie_settings cfg, some 0, some 0⟩

/-- Session deletion shared by both logout handlers: delete only when a
session cookie value is present (and truthy). -/
def logoutDelete (cfg : Config) (req : Req) (w : World) : World :=
  match extract_session_id cfg req with
  | none => w
  | some sid =>
    if sid = "" then w
    else { w with sessions := (delete_session w.sessions sid).2 }

/-- The redirect-or-JSON choice of `POST /logout`: a validated
continuation from the `continue` argument or the `Referer` wins, else an
HTML-accepting client is redirected to the site root, else a JSON ack is
returned. -/
def logoutBase (cfg : Config) (req : Req) : Response :=
  match pyOr req.args_continue req.header_referer with
  | some c =>
    if c != "" && is_allowed_redirect_url c (hostsOf cfg) then Response.redirectResp c []
    else if hasSub (pyLowerL ((req.header_accept.getD "").data)) "text/html".data then
      Response.redirectResp ("https://" ++ (hostsOf cfg).headD "" ++ "/") []
    else Response.jsonResp 200 [("ok", JVal.b true)] []
  | none =>
    if hasSub (pyLowerL ((req.header_accept.getD "").data)) "text/html".data then
      Response.redirectResp ("https://" ++ (hostsOf cfg).headD "" ++ "/") []
    else Response.jsonResp 200 [("ok", JVal.b true)] []

/-- The `POST /logout` handler. -/
def logout (cfg : Config) (req : Req) (w : World) : Response × World :=
  (addCookie (logoutBase cfg req) (clearCookie cfg), logoutDelete cfg req w)

/-- The redirect target of `GET /logout`: the target must be a string
passing the validator, else the site root on the first allowed host. -/
def logoutGetTarget (cfg : Config) (req : Req) : String :=
  match pyOr req.args_continue req.header_referer with
  | some t =>
    if is_allowed_redirect_url t (hostsOf cfg) then t
    else "https://" ++ (hostsOf cfg).headD "" ++ "/"
  | none => "https://" ++ (hostsOf cfg).headD "" ++ "/"

/-- The `GET /logout` handler. -/
def logout_get (cfg : Config) (req : Req) (w : World) : Response × World :=
  (Response.redirectResp (logoutGetTarget cfg req) [clearCookie cfg], logoutDelete cfg req w)

/-! ## Store lemmas -/

theorem consume_not_found : ∀ (states : List StateDoc) (t : String),
    (∀ d ∈ states, d.state ≠ t) → consume_oauth_state states t = (none, states)
  | [], _, _ => rfl
  | d :: rest, t, h => by
    have hd : d.state ≠ t := h d (List.mem_cons_self d rest)
    have ih := consume_not_found rest t (fun d' hm => h d' (List.mem_cons_of_mem d hm))
    simp [consume_oauth_state, hd, ih]

theorem consume_found : ∀ (states : List StateDoc) (t : String) (d : StateDoc),
    (states.map StateDoc.state).Nodup → d ∈ states → d.state = t →
    (consume_oauth_state states t).1 = some d ∧
      ∀ d' ∈ (consume_oauth_state states t).2, d'.state ≠ t
  | [], _, _, _, hmem, _ => absurd hmem (List.not_mem_nil _)
  | e :: rest, t, d, hnd, hmem, hdt => by
    rw [List.map_cons, List.nodup_cons] at hnd
    by_cases he : e.state = t
    · have hrest : ∀ d' ∈ rest, d'.state ≠ t := by
        intro d' hm heq
        exact hnd.1 (he ▸ heq ▸ List.mem_map_of_mem StateDoc.state hm)
      have hde : d = e := by
        rcases List.mem_cons.mp hmem with h | h
        · exact h
        · exact absurd hdt (hrest d h)
      subst hde
      constructor
      · simp [consume_oauth_state, he]
      · intro d' hm
        simp only [consume_oauth_state, if_pos he] at hm
        exact hrest d' hm
    · have hdr : d ∈ rest := by
        rcases List.mem_cons.mp hmem with h | h
        · exact absurd (h ▸ hdt) he
        · exact h
      have ih := consume_found rest t d hnd.2 hdr hdt
      refine ⟨by simpa [consume_oauth_state, he] using ih.1, ?_⟩
      intro d' hm
      simp only [consume_oauth_state, if_neg he] at hm
      rcases List.mem_cons.mp hm with h | h
      · exact h ▸ he
      · exact ih.2 d' h

theorem find_session_not_found (sessions : List SessionDoc) (sid : String)
    (h : ∀ s ∈ sessions, s.session_id ≠ sid) : find_session sessions sid = none := by
  apply List.find?_eq_none.mpr
  intro s hs
  simpa using h s hs

theorem find_session_append_fresh (sessions : List SessionDoc) (d : SessionDoc)
    (h : ∀ s ∈ sessions, s.session_id ≠ d.session_id) :
    find_session (sessions ++ [d]) d.session_id = some d := by
  induction sessions with
  | nil => simp [find_session]
  | cons s rest ih =>
    have hs : (s.session_id == d.session_id) = false := by
      simpa using h s (List.mem_cons_self s rest)
    have ihr := ih (fun s' hm => h s' (List.mem_cons_of_mem s hm))
    simpa [find_session, List.find?_cons_of_neg, hs] using ihr

theorem delete_session_not_found : ∀ (sessions : List SessionDoc) (sid : String),
    (∀ s ∈ sessions, s.session_id ≠ sid) → delete_session sessions sid = (false, sessions)
  | [], _, _ => rfl
  | s :: rest, sid, h => by
    have hs : s.session_id ≠ sid := h s (List.mem_cons_self s rest)
    have ih := delete_session_not_found rest sid (fun s' hm => h s' (List.mem_cons_of_mem s hm))
    simp [delete_session, hs, ih]

theorem delete_session_append : ∀ (sessions : List SessionDoc) (d : SessionDoc),
    (∀ s ∈ sessions, s.session_id ≠ d.session_id) →
    delete_session (sessions ++ [d]) d.session_id = (true, sessions)
  | [], d, _ => by simp [delete_session]
  | s :: rest, d, h => by
    have hs : s.session_id ≠ d.session_id := h s (List.mem_cons_self s rest)
    have ih := delete_session_append rest d (fun s' hm => h s' (List.mem_cons_of_mem s hm))
    simp [delete_session, hs, ih]

/-! ## URL-parsing lemmas -/

theorem ne_beq_false {c d : Char} (h : c.toNat ≠ d.toNat) : (c == d) = false := by
  rw [beq_eq_false_iff_ne]
  intro he
  exact h (he ▸ rfl)

theorem saneHostChar_toNat (c : Char) (h : saneHostChar c = true) :
    (45 ≤ c.toNat ∧ c.toNat ≤ 46) ∨ (48 ≤ c.toNat ∧ c.toNat ≤ 57) ∨
      (97 ≤ c.toNat ∧ c.toNat ≤ 122) := by
  simp only [saneHostChar, Bool.or_eq_true, Bool.and_eq_true, decide_eq_true_eq,
    beq_iff_eq] at h
  rcases h with ((h | h) | h) | h
  · exact Or.inr (Or.inr h)
  · exact Or.inr (Or.inl h)
  · subst h
    exact Or.inl (by decide)
  · subst h
    exact Or.inl (by decide)

theorem saneHostChar_props (c : Char) (h : saneHostChar c = true) :
    keepChar c = true ∧ notDelim c = true ∧ (c == ':') = false ∧
      (c == '[') = false ∧ (c == ']') = false ∧ pyLowerChar c = c := by
  have hr := saneHostChar_toNat c h
  have h9 : (c == '\t') = false :=
    ne_beq_false (show c.toNat ≠ 9 by rcases hr with ⟨a, b⟩ | ⟨a, b⟩ | ⟨a, b⟩ <;> omega)
  have h13 : (c == '\r') = false :=
    ne_beq_false (show c.toNat ≠ 13 by rcases hr with ⟨a, b⟩ | ⟨a, b⟩ | ⟨a, b⟩ <;> omega)
  have h10 : (c == '\n') = false :=
    ne_beq_false (show c.toNat ≠ 10 by rcases hr with ⟨a, b⟩ | ⟨a, b⟩ | ⟨a, b⟩ <;> omega)
  have h47 : (c == '/') = false :=
    ne_beq_false (show c.toNat ≠ 47 by rcases hr with ⟨a, b⟩ | ⟨a, b⟩ | ⟨a, b⟩ <;> omega)
  have h63 : (c == '?') = false :=
    ne_beq_false (show c.toNat ≠ 63 by rcases hr with ⟨a, b⟩ | ⟨a, b⟩ | ⟨a, b⟩ <;> omega)
  have h35 : (c == '#') = false :=
    ne_beq_false (show c.toNat ≠ 35 by rcases hr with ⟨a, b⟩ | ⟨a, b⟩ | ⟨a, b⟩ <;> omega)
  have h58 : (c == ':') = false :=
    ne_beq_false (show c.toNat ≠ 58 by rcases hr with ⟨a, b⟩ | ⟨a, b⟩ | ⟨a, b⟩ <;> omega)
  have h91 : (c == '[') = false :=
    ne_beq_false (show c.toNat ≠ 91 by rcases hr with ⟨a, b⟩ | ⟨a, b⟩ | ⟨a, b⟩ <;> omega)
  have h93 : (c == ']') = false :=
    ne_beq_false (show c.toNat ≠ 93 by rcases hr with ⟨a, b⟩ | ⟨a, b⟩ | ⟨a, b⟩ <;> omega)
  have hlow : pyLowerChar c = c := by
    have hcond : ¬((65 ≤ c.toNat && c.toNat ≤ 90) = true) := by
      simp only [Bool.and_eq_true, decide_eq_true_eq]
      rintro ⟨h1, h2⟩
      rcases hr with ⟨a, b⟩ | ⟨a, b⟩ | ⟨a, b⟩ <;> omega
    unfold pyLowerChar
    rw [if_neg hcond]
  refine ⟨?_, ?_, h58, h91, h93, hlow⟩
  · unfold keepChar
    rw [h9, h13, h10]
    rfl
  · unfold notDelim
    rw [h47, h63, h35]
    rfl

theorem saneHost_all (h : String) (hs : saneHost h = true) :
    h ≠ "" ∧ ∀ c ∈ h.data, saneHostChar c = true := by
  unfold saneHost at hs
  rw [Bool.and_eq_true] at hs
  refine ⟨by simpa using hs.1, ?_⟩
  intro c hm
  exact List.all_eq_true.mp hs.2 c hm

theorem filter_keep_of_sane (l : List Char) (h : ∀ c ∈ l, saneHostChar c = true) :
    l.filter keepChar = l :=
  List.filter_eq_self.mpr (fun c hm => (saneHostChar_props c (h c hm)).1)

theorem takeWhile_append_of_all (p : Char → Bool) : ∀ (l₁ l₂ : List Char),
    (∀ c ∈ l₁, p c = true) → (l₁ ++ l₂).takeWhile p = l₁ ++ l₂.takeWhile p
  | [], _, _ => by simp
  | c :: t, l₂, h => by
    have hc : p c = true := h c (List.mem_cons_self c t)
    have ih := takeWhile_append_of_all p t l₂ (fun c' hm => h c' (List.mem_cons_of_mem c hm))
    simp [List.takeWhile_cons, hc, ih]

theorem takeWhile_all (p : Char → Bool) : ∀ (l : List Char),
    (∀ c ∈ l, p c = true) → l.takeWhile p = l
  | [], _ => rfl
  | c :: t, h => by
    have hc : p c = true := h c (List.mem_cons_self c t)
    have ih := takeWhile_all p t (fun c' hm => h c' (List.mem_cons_of_mem c hm))
    simp [List.takeWhile_cons, hc, ih]

theorem pyLowerL_fixed : ∀ (l : List Char), (∀ c ∈ l, saneHostChar c = true) → pyLowerL l = l
  | [], _ => rfl
  | c :: t, h => by
    have hc := (saneHostChar_props c (h c (List.mem_cons_self c t))).2.2.2.2.2
    have ih := pyLowerL_fixed t (fun c' hm => h c' (List.mem_cons_of_mem c hm))
    simp only [pyLowerL, List.map_cons] at ih ⊢
    rw [hc, ih]

theorem any_beq_false (l : List Char) (br : Char) (h : ∀ c ∈ l, (c == br) = false) :
    (l.any fun c => c == br) = false := by
  simp only [List.any_eq_false]
  intro c hm
  simp [h c hm]

theorem headD_mem_of_ne_nil {α : Type} (l : List α) (d : α) (h : l ≠ []) : l.headD d ∈ l := by
  cases l with
  | nil => exact absurd rfl h
  | cons a t => simp

theorem listStartsWith_single (l : List Char) (c : Char)
    (h : listStartsWith l [c] = true) : ∃ t, l = c :: t := by
  cases l with
  | nil => exact absurd h (by simp [listStartsWith])
  | cons a t =>
    have ha : a = c := by
      simp only [listStartsWith, Bool.and_eq_true, beq_iff_eq] at h
      exact h.1
    exact ⟨t, by rw [ha]⟩

theorem parseAux_slashslash (s tail : List Char) :
    parseAux (s, '/' :: '/' :: tail) = bracketCheck s (tail.takeWhile notDelim) := rfl

theorem bracketCheck_clean (s nl : List Char)
    (hbl : (nl.any fun c => c == '[') = false) (hbr : (nl.any fun c => c == ']') = false) :
    bracketCheck s nl = Except.ok (⟨s⟩, ⟨nl⟩) := by
  unfold bracketCheck
  rw [hbl, hbr]
  rfl

theorem lstrip_https (l : List Char) :
    lstripC0 ('h' :: 't' :: 't' :: 'p' :: 's' :: ':' :: '/' :: '/' :: l) =
      'h' :: 't' :: 't' :: 'p' :: 's' :: ':' :: '/' :: '/' :: l := rfl

theorem drop_https (l : List Char) :
    dropTabCrLf ('h' :: 't' :: 't' :: 'p' :: 's' :: ':' :: '/' :: '/' :: l) =
      'h' :: 't' :: 't' :: 'p' :: 's' :: ':' :: '/' :: '/' :: dropTabCrLf l := rfl

theorem extractScheme_https (l : List Char) :
    extractScheme ('h' :: 't' :: 't' :: 'p' :: 's' :: ':' :: l) = (['h', 't', 't', 'p', 's'], l) :=
  rfl

/-- Parsing `https://<first><p>` for a sane host `first` and a
slash-initial `p` yields scheme `https` and netloc `first`. -/
theorem parse_https_first (first p : String)
    (hsane : saneHost first = true) (hp : listStartsWith p.data ['/'] = true) :
    parseSchemeNetloc ("https://" ++ first ++ p) = Except.ok ("https", first) := by
  obtain ⟨hfe, hall⟩ := saneHost_all first hsane
  obtain ⟨t, ht⟩ := listStartsWith_single p.data '/' hp
  unfold parseSchemeNetloc
  have hdata : ("https://" ++ first ++ p).data =
      'h' :: 't' :: 't' :: 'p' :: 's' :: ':' :: '/' :: '/' :: (first.data ++ '/' :: t) := by
    rw [String.data_append, String.data_append, ht]
    rfl
  rw [hdata, lstrip_https, drop_https]
  have hdrop : dropTabCrLf (first.data ++ '/' :: t) = first.data ++ '/' :: dropTabCrLf t := by
    unfold dropTabCrLf
    rw [List.filter_append]
    have h1 : first.data.filter keepChar = first.data := filter_keep_of_sane first.data hall
    rw [h1, List.filter_cons]
    rfl
  have htake : ((first.data ++ '/' :: dropTabCrLf t).takeWhile notDelim) = first.data := by
    rw [takeWhile_append_of_all notDelim first.data _
      (fun c hm => (saneHostChar_props c (hall c hm)).2.1)]
    have hstop : (('/' :: dropTabCrLf t).takeWhile notDelim) = [] := by
      simp [List.takeWhile_cons, notDelim]
    rw [hstop, List.append_nil]
  have hbl : (first.data.any fun c => c == '[') = false :=
    any_beq_false _ _ (fun c hm => (saneHostChar_props c (hall c hm)).2.2.2.1)
  have hbr : (first.data.any fun c => c == ']') = false :=
    any_beq_false _ _ (fun c hm => (saneHostChar_props c (hall c hm)).2.2.2.2.1)
  rw [hdrop, extractScheme_https, parseAux_slashslash, htake, bracketCheck_clean _ _ hbl hbr]

theorem hostOfNetloc_sane (h : String) (hs : saneHost h = true) : hostOfNetloc h = h := by
  obtain ⟨-, hall⟩ := saneHost_all h hs
  unfold hostOfNetloc
  have h1 : h.data.takeWhile (fun c => !(c == ':')) = h.data :=
    takeWhile_all _ _ (fun c hm => by
      have hc := (saneHostChar_props c (hall c hm)).2.2.1
      simp [hc])
  rw [h1, pyLowerL_fixed h.data hall]

/-- The fixed fallback and the relative-path mapping both pass the
validator (for a sane first host). -/
theorem is_allowed_https_first (hosts : List String) (p : String)
    (hne : hosts ≠ []) (hsane : saneHost (hosts.headD "") = true)
    (hp : listStartsWith p.data ['/'] = true) :
    is_allowed_redirect_url ("https://" ++ hosts.headD "" ++ p) hosts = true := by
  obtain ⟨hfe, hall⟩ := saneHost_all _ hsane
  unfold is_allowed_redirect_url
  rw [parse_https_first (hosts.headD "") p hsane hp]
  dsimp only
  have hcond : ¬(((("https" : String) == "") || ((hosts.headD "") == "")) = true) := by
    rw [beq_eq_false_iff_ne.mpr hfe]
    simp
  rw [if_neg hcond]
  apply List.any_eq_true.mpr
  refine ⟨hosts.headD "", headD_mem_of_ne_nil hosts "" hne, ?_⟩
  rw [hostOfNetloc_sane _ hsane]
  simp

theorem parseAux_scheme (sr : List Char × List Char) (s nl : String)
    (h : parseAux sr = Except.ok (s, nl)) : s = ⟨sr.1⟩ := by
  unfold parseAux bracketCheck at h
  split at h
  · split at h
    · exact absurd h (by simp)
    · simp only [Except.ok.injEq, Prod.mk.injEq] at h
      exact h.1.symm
  · simp only [Except.ok.injEq, Prod.mk.injEq] at h
    exact h.1.symm

theorem extractScheme_slash (l : List Char) :
    extractScheme ('/' :: l) = ([], '/' :: l) := rfl

/-- Any URL that begins with `/` parses with an empty scheme. -/
theorem parse_slash_scheme (p : String) (hp : listStartsWith p.data ['/'] = true)
    (s nl : String) (h : parseSchemeNetloc p = Except.ok (s, nl)) : s = "" := by
  obtain ⟨t, ht⟩ := listStartsWith_single p.data '/' hp
  unfold parseSchemeNetloc at h
  rw [ht] at h
  rw [show lstripC0 ('/' :: t) = '/' :: t from rfl] at h
  rw [show dropTabCrLf ('/' :: t) = '/' :: dropTabCrLf t from rfl] at h
  rw [extractScheme_slash] at h
  exact parseAux_scheme _ _ _ h

/-- Any URL that begins with `/` fails the validator: the parsed scheme
is empty (or parsing raises). -/
theorem is_allowed_slash_false (p : String) (hosts : List String)
    (hp : listStartsWith p.data ['/'] = true) :
    is_allowed_redirect_url p hosts = false := by
  unfold is_allowed_redirect_url
  cases hpr : parseSchemeNetloc p with
  | error e => rfl
  | ok sn =>
    have hs : sn.1 = "" := parse_slash_scheme p hp sn.1 sn.2 (by rw [hpr])
    dsimp only
    rw [hs]
    simp

theorem is_allowed_empty (hosts : List String) : is_allowed_redirect_url "" hosts = false := rfl

/-- A value that already validates is returned unchanged by
`_pick_continue_url`. -/
theorem pick_returns_valid (hosts : List String) (a x r : Option String) (p : String)
    (hprov : pyOr a (pyOr x r) = some p)
    (hvalid : is_allowed_redirect_url p hosts = true) :
    pick_continue_url hosts a x r = p := by
  have hpe : p ≠ "" := by
    intro he
    rw [he, is_allowed_empty hosts] at hvalid
    exact absurd hvalid (by simp)
  have hslash : listStartsWith p.data ['/'] = false := by
    cases hsl : listStartsWith p.data ['/'] with
    | false => rfl
    | true =>
      rw [is_allowed_slash_false p hosts hsl] at hvalid
      exact absurd hvalid (by simp)
  unfold pick_continue_url
  rw [hprov]
  show (if p = "" then _ else _) = p
  rw [if_neg hpe, hslash]
  show (if (false && !listStartsWith p.data ['/', '/']) = true then _ else _) = p
  rw [if_neg (by simp)]
  rw [if_pos hvalid]

theorem listStartsWith_pair (l : List Char) (c d : Char)
    (h : listStartsWith l [c, d] = true) : ∃ t, l = c :: d :: t := by
  cases l with
  | nil => exact absurd h (by simp [listStartsWith])
  | cons a t =>
    cases t with
    | nil => exact absurd h (by simp [listStartsWith])
    | cons b t' =>
      have hcd : a = c ∧ b = d := by
        simp only [listStartsWith, Bool.and_eq_true, beq_iff_eq] at h
        exact ⟨h.1, h.2.1⟩
      exact ⟨t', by rw [hcd.1, hcd.2]⟩

/-! ## C2 -/

/-- C2: with a nonempty allowed-host list whose first entry is a sane
host name, the output of `_pick_continue_url` always passes
`_is_allowed_redirect_url` (the fallback lands on the first allowed
host), an input absolute URL that already validates is returned
unchanged whichever of the three sources supplied it, and feeding a
valid URL back as the explicit `continue` parameter is the identity —
idempotence on already-valid URLs. -/
theorem pick_continue_url_safe (hosts : List String) (a x r : Option String)
    (hne : hosts ≠ []) (hsane : saneHost (hosts.headD "") = true) :
    is_allowed_redirect_url (pick_continue_url hosts a x r) hosts = true ∧
    (∀ p, pyOr a (pyOr x r) = some p → is_allowed_redirect_url p hosts = true →
      pick_continue_url hosts a x r = p) ∧
    (∀ u, is_allowed_redirect_url u hosts = true →
      pick_continue_url hosts (some u) x r = u) := by
  refine ⟨?_, ?_, ?_⟩
  · cases hprov : pyOr a (pyOr x r) with
    | none =>
      have hpk : pick_continue_url hosts a x r = "https://" ++ hosts.headD "" ++ "/me" := by
        unfold pick_continue_url
        rw [hprov]
      rw [hpk]
      exact is_allowed_https_first hosts "/me" hne hsane rfl
    | some p =>
      by_cases hpe : p = ""
      · have hpk : pick_continue_url hosts a x r = "https://" ++ hosts.headD "" ++ "/me" := by
          unfold pick_continue_url
          rw [hprov]
          dsimp only
          rw [if_pos hpe]
        rw [hpk]
        exact is_allowed_https_first hosts "/me" hne hsane rfl
      · by_cases hrel : (listStartsWith p.data ['/'] && !listStartsWith p.data ['/', '/']) = true
        · have hpk : pick_continue_url hosts a x r = "https://" ++ hosts.headD "" ++ p := by
            unfold pick_continue_url
            rw [hprov]
            dsimp only
            rw [if_neg hpe, if_pos hrel]
          rw [hpk]
          have hrel1 : listStartsWith p.data ['/'] = true := by
            have h' := hrel
            simp only [Bool.and_eq_true] at h'
            exact h'.1
          exact is_allowed_https_first hosts p hne hsane hrel1
        · by_cases hval : is_allowed_redirect_url p hosts = true
          · rw [pick_returns_valid hosts a x r p hprov hval]
            exact hval
          · have hpk : pick_continue_url hosts a x r =
                "https://" ++ hosts.headD "" ++ "/me" := by
              unfold pick_continue_url
              rw [hprov]
              dsimp only
              rw [if_neg hpe, if_neg hrel, if_neg hval]
            rw [hpk]
            exact is_allowed_https_first hosts "/me" hne hsane rfl
  · intro p hprov hvalid
    exact pick_returns_valid hosts a x r p hprov hvalid
  · intro u hvalid
    have hue : u ≠ "" := by
      intro he
      rw [he, is_allowed_empty hosts] at hvalid
      exact absurd hvalid (by simp)
    have hprov : pyOr (some u) (pyOr x r) = some u := by
      unfold pyOr
      dsimp only
      rw [if_neg hue]
    exact pick_returns_valid hosts (some u) x r u hprov hvalid

/-- Concrete instance of C2: the default host list, a valid subdomain
URL supplied as the explicit `continue` parameter. -/
theorem pick_continue_url_safe_witness :
    is_allowed_redirect_url
        (pick_continue_url ["ledd.live"] (some "https://app.ledd.live/p") none none)
        ["ledd.live"] = true ∧
      pick_continue_url ["ledd.live"] (some "https://app.ledd.live/p") none none =
        "https://app.ledd.live/p" := by
  have h := pick_continue_url_safe ["ledd.live"] (some "https://app.ledd.live/p") none none
    (by decide) (by decide)
  exact ⟨h.1, h.2.2 "https://app.ledd.live/p" (by decide)⟩

/-! ## C3 -/

/-- C3 counterexample: `javascript://ledd.live` is a URL string whose
scheme is `javascript`, yet the validator accepts it — parsing yields
the nonempty netloc `ledd.live`, which passes the host check, and the
scheme is not otherwise restricted. -/
theorem javascript_scheme_accepted :
    parseSchemeNetloc "javascript://ledd.live" = Except.ok ("javascript", "ledd.live") ∧
    is_allowed_redirect_url "javascript://ledd.live" ["ledd.live"] = true := by
  exact ⟨rfl, by decide⟩

/-- C3 (amended): any URL whose parse yields an empty netloc — in
particular a `javascript:` URL whose remainder does not start with
`//`, such as `javascript:alert(1)` — is rejected by the validator. -/
theorem is_allowed_empty_netloc_false (url : String) (hosts : List String) (s : String)
    (h : parseSchemeNetloc url = Except.ok (s, "")) :
    is_allowed_redirect_url url hosts = false := by
  unfold is_allowed_redirect_url
  rw [h]
  dsimp only
  simp

/-- Concrete instance of the amended C3: `javascript:alert(1)` parses
with an empty netloc and is rejected. -/
theorem is_allowed_empty_netloc_false_witness :
    parseSchemeNetloc "javascript:alert(1)" = Except.ok ("javascript", "") ∧
    is_allowed_redirect_url "javascript:alert(1)" ["ledd.live"] = false :=
  ⟨rfl, is_allowed_empty_netloc_false "javascript:alert(1)" ["ledd.live"] "javascript" rfl⟩

/-! ## C4 -/

/-- C4: an input beginning with `/` but not `//` is mapped by
`_pick_continue_url` to a path on the first allowed host; every input
beginning with `/` parses with an empty scheme and hence fails
`_is_allowed_redirect_url`; so a protocol-relative `//host/...` input is
not treated as a relative path and the fixed fallback is returned. -/
theorem pick_relative_protocol_relative (hosts : List String) (a x r : Option String)
    (_hne : hosts ≠ []) :
    (∀ p, pyOr a (pyOr x r) = some p → listStartsWith p.data ['/'] = true →
      listStartsWith p.data ['/', '/'] = false →
      pick_continue_url hosts a x r = "https://" ++ hosts.headD "" ++ p) ∧
    (∀ p : String, listStartsWith p.data ['/'] = true →
      is_allowed_redirect_url p hosts = false ∧
      ∀ s nl, parseSchemeNetloc p = Except.ok (s, nl) → s = "") ∧
    (∀ p, pyOr a (pyOr x r) = some p → listStartsWith p.data ['/', '/'] = true →
      pick_continue_url hosts a x r = "https://" ++ hosts.headD "" ++ "/me") := by
  refine ⟨?_, ?_, ?_⟩
  · intro p hprov h1 h2
    have hpe : p ≠ "" := by
      intro he
      rw [he] at h1
      exact absurd h1 (by decide)
    unfold pick_continue_url
    rw [hprov]
    dsimp only
    rw [if_neg hpe]
    rw [if_pos (show (listStartsWith p.data ['/'] && !listStartsWith p.data ['/', '/']) = true
      by rw [h1, h2]; rfl)]
  · intro p h1
    exact ⟨is_allowed_slash_false p hosts h1, fun s nl h => parse_slash_scheme p h1 s nl h⟩
  · intro p hprov h2
    obtain ⟨t, ht⟩ := listStartsWith_pair p.data '/' '/' h2
    have h1 : listStartsWith p.data ['/'] = true := by
      rw [ht]
      rfl
    have hpe : p ≠ "" := by
      intro he
      rw [he] at h1
      exact absurd h1 (by decide)
    unfold pick_continue_url
    rw [hprov]
    dsimp only
    rw [if_neg hpe]
    rw [if_neg (show ¬((listStartsWith p.data ['/'] && !listStartsWith p.data ['/', '/']) = true)
      by rw [h2]; simp)]
    rw [if_neg (show ¬(is_allowed_redirect_url p hosts = true)
      by rw [is_allowed_slash_false p hosts h1]; simp)]

/-- Concrete instance of C4: `/dash` maps to the first allowed host,
`//evil.example/x` is rejected and replaced by the fallback. -/
theorem pick_relative_protocol_relative_witness :
    pick_continue_url ["ledd.live"] (some "/dash") none none = "https://ledd.live/dash" ∧
    is_allowed_redirect_url "//evil.example/x" ["ledd.live"] = false ∧
    pick_continue_url ["ledd.live"] (some "//evil.example/x") none none =
      "https://ledd.live/me" := by
  have h1 := pick_relative_protocol_relative ["ledd.live"] (some "/dash") none none (by decide)
  have h2 := pick_relative_protocol_relative ["ledd.live"] (some "//evil.example/x") none none
    (by decide)
  refine ⟨?_, (h2.2.1 "//evil.example/x" (by decide)).1, ?_⟩
  · exact (h1.1 "/dash" (by decide) (by decide) (by decide)).trans (by decide)
  · exact (h2.2.2 "//evil.example/x" (by decide) (by decide)).trans (by decide)

/-! ## C1 -/

/-- C1: for a store whose CSRF tokens are pairwise distinct (the unique
index `uniq_state`), `consume_oauth_state` applied twice to the same
token yields the stored record exactly once — the first call returns it
and deletes it, the second call returns `none` and leaves the store
unchanged — and consuming a token that is not stored returns `none` and
leaves the store unchanged. -/
theorem consume_oauth_state_exactly_once (states : List StateDoc) (t : String)
    (hnd : (states.map StateDoc.state).Nodup) :
    (∀ d ∈ states, d.state = t →
        (consume_oauth_state states t).1 = some d ∧
          consume_oauth_state (consume_oauth_state states t).2 t =
            (none, (consume_oauth_state states t).2)) ∧
    ((∀ d ∈ states, d.state ≠ t) → consume_oauth_state states t = (none, states)) := by
  constructor
  · intro d hmem hdt
    obtain ⟨h1, h2⟩ := consume_found states t d hnd hmem hdt
    exact ⟨h1, consume_not_found _ t h2⟩
  · intro h
    exact consume_not_found states t h

/-- Concrete instance of C1: a one-record store, the stored token
"tok1" and the never-stored token "missing". -/
theorem consume_oauth_state_exactly_once_witness :
    (consume_oauth_state [⟨"tok1", some "https://ledd.live/me", 5⟩] "tok1").1 =
        some ⟨"tok1", some "https://ledd.live/me", 5⟩ ∧
      consume_oauth_state
          (consume_oauth_state [⟨"tok1", some "https://ledd.live/me", 5⟩] "tok1").2 "tok1" =
        (none, (consume_oauth_state [⟨"tok1", some "https://ledd.live/me", 5⟩] "tok1").2) ∧
      consume_oauth_state [⟨"tok1", some "https://ledd.live/me", 5⟩] "missing" =
        (none, [⟨"tok1", some "https://ledd.live/me", 5⟩]) := by
  have h := consume_oauth_state_exactly_once [⟨"tok1", some "https://ledd.live/me", 5⟩] "tok1"
    (by decide)
  have h' := consume_oauth_state_exactly_once [⟨"tok1", some "https://ledd.live/me", 5⟩]
    "missing" (by decide)
  obtain ⟨ha, hb⟩ := h.1 ⟨"tok1", some "https://ledd.live/me", 5⟩ (by decide) rfl
  exact ⟨ha, hb, h'.2 (by decide)⟩

/-! ## C7 -/

/-- C7: creating a session for an existing identity and looking it up
immediately returns that identity's record; deleting the session makes
the lookup return `none`; and deleting a session id that is not stored
returns `false` and leaves the store unchanged. -/
theorem session_lifecycle (sessions : List SessionDoc) (users : List UserDoc)
    (sid did : String) (now : Nat) (u : UserDoc)
    (hfresh : ∀ s ∈ sessions, s.session_id ≠ sid)
    (huser : find_user users did = some u) :
    ∃ sessions',
      new_session sessions sid did now = some (sid, sessions') ∧
      get_user_by_session sessions' users sid = some u ∧
      delete_session sessions' sid = (true, sessions) ∧
      get_user_by_session sessions users sid = none ∧
      delete_session sessions sid = (false, sessions) := by
  have hany : (sessions.any fun s => s.session_id == sid) = false := by
    simp only [List.any_eq_false]
    intro s hs
    simpa using hfresh s hs
  refine ⟨sessions ++ [⟨sid, did, now⟩], ?_, ?_, ?_, ?_, ?_⟩
  · simp [new_session, hany]
  · have hf := find_session_append_fresh sessions ⟨sid, did, now⟩ hfresh
    simp only [get_user_by_session, hf]
    exact huser
  · exact delete_session_append sessions ⟨sid, did, now⟩ hfresh
  · simp [get_user_by_session, find_session_not_found sessions sid hfresh]
  · exact delete_session_not_found sessions sid hfresh

/-- Concrete instance of C7: one existing identity "123", a fresh
session id "sidA" appended to an existing unrelated session. -/
theorem session_lifecycle_witness :
    (∀ s ∈ [(⟨"other", "999", 1⟩ : SessionDoc)], s.session_id ≠ "sidA") ∧
    ∃ sessions',
      new_session [⟨"other", "999", 1⟩] "sidA" "123" 7 = some ("sidA", sessions') ∧
      get_user_by_session sessions'
          [{ discord_id := "123", username := some "alice", global_name := none,
             avatar := none, discriminator := none, updated_at := 3,
             token := ⟨some "t", none, none, none, none⟩, created_at := 3 }] "sidA" =
        some { discord_id := "123", username := some "alice", global_name := none,
               avatar := none, discriminator := none, updated_at := 3,
               token := ⟨some "t", none, none, none, none⟩, created_at := 3 } ∧
      delete_session sessions' "sidA" = (true, [⟨"other", "999", 1⟩]) ∧
      get_user_by_session [⟨"other", "999", 1⟩]
          [{ discord_id := "123", username := some "alice", global_name := none,
             avatar := none, discriminator := none, updated_at := 3,
             token := ⟨some "t", none, none, none, none⟩, created_at := 3 }] "sidA" = none ∧
      delete_session [⟨"other", "999", 1⟩] "sidA" = (false, [⟨"other", "999", 1⟩]) :=
  ⟨by decide,
    session_lifecycle [⟨"other", "999", 1⟩]
      [{ discord_id := "123", username := some "alice", global_name := none,
         avatar := none, discriminator := none, updated_at := 3,
         token := ⟨some "t", none, none, none, none⟩, created_at := 3 }]
      "sidA" "123" 7
      { discord_id := "123", username := some "alice", global_name := none,
        avatar := none, discriminator := none, updated_at := 3,
        token := ⟨some "t", none, none, none, none⟩, created_at := 3 }
      (by decide) rfl⟩

/-! ## C6 -/

/-- The number of `users` documents carrying a given `discord_id`. -/
def countId (users : List UserDoc) (id : String) : Nat :=
  (users.filter (fun u => u.discord_id == id)).length

theorem countId_append (a b : List UserDoc) (id : String) :
    countId (a ++ b) id = countId a id + countId b id := by
  simp [countId, List.filter_append]

theorem find_user_none_iff (users : List UserDoc) (id : String) :
    find_user users id = none ↔ ∀ u ∈ users, u.discord_id ≠ id := by
  unfold find_user
  rw [List.find?_eq_none]
  constructor
  · intro h u hm
    simpa using h u hm
  · intro h u hm
    simpa using h u hm

theorem find_user_some_count (users : List UserDoc) (id : String) (u : UserDoc)
    (h : find_user users id = some u) : 1 ≤ countId users id := by
  unfold find_user at h
  have hmem : u ∈ users := List.mem_of_find?_eq_some h
  have hpred : (u.discord_id == id) = true := by
    have := List.find?_some h
    simpa using this
  have hmemf : u ∈ users.filter (fun v => v.discord_id == id) :=
    List.mem_filter.mpr ⟨hmem, hpred⟩
  have := List.length_pos.mpr (List.ne_nil_of_mem hmemf)
  simpa [countId] using this

theorem mongoUpdateFirst_none (users : List UserDoc) (id : String) (f : UserDoc → UserDoc)
    (h : find_user users id = none) : mongoUpdateFirst users id f = none := by
  induction users with
  | nil => rfl
  | cons v rest ih =>
    rw [find_user_none_iff] at h
    have hv : v.discord_id ≠ id := h v (List.mem_cons_self v rest)
    have ihr : mongoUpdateFirst rest id f = none := by
      apply ih
      rw [find_user_none_iff]
      exact fun u hm => h u (List.mem_cons_of_mem v hm)
    simp [mongoUpdateFirst, hv, ihr]

theorem mongoUpdateFirst_found : ∀ (users : List UserDoc) (id : String) (f : UserDoc → UserDoc)
    (u : UserDoc), find_user users id = some u → (f u).discord_id = id →
    ∃ us', mongoUpdateFirst users id f = some us' ∧
      find_user us' id = some (f u) ∧
      ∀ id'', countId us' id'' = countId users id''
  | [], _, _, _, h, _ => absurd h (by simp [find_user])
  | v :: rest, id, f, u, h, hf => by
    by_cases hv : v.discord_id = id
    · have hu : u = v := by
        have : find_user (v :: rest) id = some v := by
          simp [find_user, List.find?_cons_of_pos, hv]
        rw [this] at h
        exact (Option.some_inj.mp h).symm
      subst hu
      refine ⟨f u :: rest, by simp [mongoUpdateFirst, hv], ?_, ?_⟩
      · simp [find_user, List.find?_cons_of_pos, hf]
      · intro id''
        simp only [countId, List.filter_cons]
        have : ((f u).discord_id == id'') = (u.discord_id == id'') := by
          rw [hf, hv]
        rw [this]
        by_cases hc : (u.discord_id == id'') = true
        · simp [hc]
        · simp [hc]
    · have hr : find_user rest id = some u := by
        have hvb : (v.discord_id == id) = false := by simpa using hv
        simpa [find_user, List.find?_cons_of_neg, hvb] using h
      obtain ⟨us', h1, h2, h3⟩ := mongoUpdateFirst_found rest id f u hr hf
      refine ⟨v :: us', by simp [mongoUpdateFirst, hv, h1], ?_, ?_⟩
      · have hvb : (v.discord_id == id) = false := by simpa using hv
        simpa [find_user, List.find?_cons_of_neg, hvb] using h2
      · intro id''
        simp only [countId, List.filter_cons]
        by_cases hc : (v.discord_id == id'') = true
        · simpa [hc] using h3 id''
        · simpa [hc] using h3 id''

theorem find_user_append_fresh (users : List UserDoc) (d : UserDoc)
    (h : find_user users d.discord_id = none) :
    find_user (users ++ [d]) d.discord_id = some d := by
  unfold find_user at h ⊢
  rw [List.find?_append, h]
  simp

/-- C6: under the `uniq_discord_id` invariant (at most one record per
discord id), `upsert_discord_user` leaves exactly one record for the
upserted id and does not touch the count of any other id; a first login
creates the record with `created_at = now`, and a subsequent login
returns the stored record with profile, credential fields and
`updated_at` replaced while `created_at` is untouched. -/
theorem upsert_discord_user_spec (users : List UserDoc) (du : DiscordUser) (tok : TokenInfo)
    (now : Nat) (hinv : countId users du.id ≤ 1) :
    countId (upsert_discord_user users du tok now).2 du.id = 1 ∧
    (∀ id', id' ≠ du.id →
      countId (upsert_discord_user users du tok now).2 id' = countId users id') ∧
    (find_user users du.id = none →
      (upsert_discord_user users du tok now).1 = some (newUserDoc du tok now) ∧
      (newUserDoc du tok now).created_at = now) ∧
    (∀ u, find_user users du.id = some u →
      (upsert_discord_user users du tok now).1 = some (setProfile du tok now u) ∧
      (setProfile du tok now u).created_at = u.created_at ∧
      (setProfile du tok now u).updated_at = now ∧
      (setProfile du tok now u).token = tok) := by
  have hfst : (upsert_discord_user users du tok now).1 =
      find_user (upsert_discord_user users du tok now).2 du.id := by
    simp [upsert_discord_user]
  cases hfind : find_user users du.id with
  | none =>
    have hzero : countId users du.id = 0 := by
      rw [find_user_none_iff] at hfind
      simp only [countId, List.length_eq_zero]
      rw [List.filter_eq_nil_iff]
      intro u hm
      simpa using hfind u hm
    have hupd := mongoUpdateFirst_none users du.id (setProfile du tok now) hfind
    have hworld : (upsert_discord_user users du tok now).2 =
        users ++ [newUserDoc du tok now] := by
      simp [upsert_discord_user, hupd]
    refine ⟨?_, ?_, ?_, ?_⟩
    · rw [hworld, countId_append, hzero]
      simp [countId, newUserDoc]
    · intro id' hne
      rw [hworld, countId_append]
      have hz : countId [newUserDoc du tok now] id' = 0 := by
        simp [countId, newUserDoc, List.filter_cons, Ne.symm hne]
      rw [hz]
      omega
    · intro _
      refine ⟨?_, rfl⟩
      rw [hfst, hworld]
      exact find_user_append_fresh users _ hfind
    · intro u hu
      exact absurd hu (by simp)
  | some u =>
    have hf : (setProfile du tok now u).discord_id = du.id := rfl
    obtain ⟨us', h1, h2, h3⟩ := mongoUpdateFirst_found users du.id (setProfile du tok now) u
      hfind hf
    have hworld : (upsert_discord_user users du tok now).2 = us' := by
      simp [upsert_discord_user, h1]
    have hone : countId users du.id = 1 :=
      le_antisymm hinv (find_user_some_count users du.id u hfind)
    refine ⟨?_, ?_, ?_, ?_⟩
    · rw [hworld, h3, hone]
    · intro id' _
      rw [hworld, h3]
    · intro h
      exact absurd h (by simp)
    · intro u' hu'
      have huu : u = u' := Option.some_inj.mp hu'
      subst huu
      refine ⟨?_, rfl, rfl, rfl⟩
      rw [hfst, hworld]
      exact h2

/-- Concrete instance of C6: a first login of user "123" into an empty
store, then a second login updating the profile. -/
theorem upsert_discord_user_spec_witness :
    (upsert_discord_user [] ⟨"123", some "alice", none, none, none⟩
        ⟨some "t1", none, none, none, none⟩ 3).1 =
      some { discord_id := "123", username := some "alice", global_name := none,
             avatar := none, discriminator := none, updated_at := 3,
             token := ⟨some "t1", none, none, none, none⟩, created_at := 3 } ∧
    countId (upsert_discord_user
        [{ discord_id := "123", username := some "alice", global_name := none,
           avatar := none, discriminator := none, updated_at := 3,
           token := ⟨some "t1", none, none, none, none⟩, created_at := 3 }]
        ⟨"123", some "alice2", none, none, none⟩
        ⟨some "t2", none, none, none, none⟩ 9).2 "123" = 1 ∧
    (upsert_discord_user
        [{ discord_id := "123", username := some "alice", global_name := none,
           avatar := none, discriminator := none, updated_at := 3,
           token := ⟨some "t1", none, none, none, none⟩, created_at := 3 }]
        ⟨"123", some "alice2", none, none, none⟩
        ⟨some "t2", none, none, none, none⟩ 9).1 =
      some { discord_id := "123", username := some "alice2", global_name := none,
             avatar := none, discriminator := none, updated_at := 9,
             token := ⟨some "t2", none, none, none, none⟩, created_at := 3 } := by
  have h1 := upsert_discord_user_spec [] ⟨"123", some "alice", none, none, none⟩
    ⟨some "t1", none, none, none, none⟩ 3 (by decide)
  have h2 := upsert_discord_user_spec
    [{ discord_id := "123", username := some "alice", global_name := none,
       avatar := none, discriminator := none, updated_at := 3,
       token := ⟨some "t1", none, none, none, none⟩, created_at := 3 }]
    ⟨"123", some "alice2", none, none, none⟩ ⟨some "t2", none, none, none, none⟩ 9 (by decide)
  refine ⟨(h1.2.2.1 rfl).1, h2.1, ?_⟩
  exact (h2.2.2.2 _ rfl).1

/-! ## C5 -/

/-- C5: with provider credentials configured, a callback carrying a
provider `error` is answered with the diagnostic HTML page and the
world — State Store included — is untouched, so no state is consumed;
otherwise a missing (or empty) `code` or `state` is answered with the
400 `Missing code or state` JSON error and the world is unchanged, so
neither the State Store nor the Session Store is mutated. -/
theorem discord_callback_early_paths (cfg : Config) (req : Req) (o : Oracle) (w : World)
    (hcid : truthy cfg.discord_client_id = true)
    (hcs : truthy cfg.discord_client_secret = true) :
    (truthy req.args_error = true →
      discord_callback cfg req o w =
        (Response.htmlResp ("<h3>Discord error: " ++ (req.args_error.getD "") ++ "</h3>"), w)) ∧
    (truthy req.args_error = false →
      (truthy req.args_code = false ∨ truthy req.args_state = false) →
      discord_callback cfg req o w =
        (Response.jsonResp 400 [("error", JVal.s "Missing code or state")] [], w)) := by
  have hconf : ¬((!(truthy cfg.discord_client_id && truthy cfg.discord_client_secret)) = true) :=
    by rw [hcid, hcs]; simp
  constructor
  · intro herr
    unfold discord_callback
    rw [if_neg hconf, if_pos herr]
  · intro herr hmiss
    have hcondb : (truthy req.args_code && truthy req.args_state) = false := by
      rcases hmiss with h | h <;> rw [h] <;> simp
    unfold discord_callback
    rw [if_neg hconf, if_neg (show ¬(truthy req.args_error = true) by rw [herr]; simp),
      if_pos (show (!(truthy req.args_code && truthy req.args_state)) = true by
        rw [hcondb]; rfl)]

/-- Concrete instance of C5: a provider-denied callback and a callback
with a missing code, on a one-record state store. -/
theorem discord_callback_early_paths_witness :
    discord_callback ⟨some "id", some "sec", none, none, none, none, none⟩
        ⟨none, none, some "access_denied", none, none, none, none, []⟩
        ⟨Except.error (), Except.error (), "sid", 0⟩
        ⟨[⟨"tok1", some "https://ledd.live/me", 0⟩], [], []⟩ =
      (Response.htmlResp "<h3>Discord error: access_denied</h3>",
        ⟨[⟨"tok1", some "https://ledd.live/me", 0⟩], [], []⟩) ∧
    discord_callback ⟨some "id", some "sec", none, none, none, none, none⟩
        ⟨none, some "tok1", none, none, none, none, none, []⟩
        ⟨Except.error (), Except.error (), "sid", 0⟩
        ⟨[⟨"tok1", some "https://ledd.live/me", 0⟩], [], []⟩ =
      (Response.jsonResp 400 [("error", JVal.s "Missing code or state")] [],
        ⟨[⟨"tok1", some "https://ledd.live/me", 0⟩], [], []⟩) := by
  have h1 := discord_callback_early_paths ⟨some "id", some "sec", none, none, none, none, none⟩
    ⟨none, none, some "access_denied", none, none, none, none, []⟩
    ⟨Except.error (), Except.error (), "sid", 0⟩
    ⟨[⟨"tok1", some "https://ledd.live/me", 0⟩], [], []⟩ (by decide) (by decide)
  have h2 := discord_callback_early_paths ⟨some "id", some "sec", none, none, none, none, none⟩
    ⟨none, some "tok1", none, none, none, none, none, []⟩
    ⟨Except.error (), Except.error (), "sid", 0⟩
    ⟨[⟨"tok1", some "https://ledd.live/me", 0⟩], [], []⟩ (by decide) (by decide)
  exact ⟨(h1.1 (by decide)).trans (by decide), h2.2 (by decide) (Or.inl (by decide))⟩

/-! ## C8 -/

/-- Every response the `/me` handler can produce. -/
theorem me_cases (cfg : Config) (req : Req) (w : World) :
    me cfg req w = Response.jsonResp 401 [("error", JVal.s "Not authenticated")] [] ∨
    me cfg req w = Response.jsonResp 401 [("error", JVal.s "Invalid session")] [] ∨
    ∃ u : UserDoc, me cfg req w = Response.jsonResp 200
      [("discord_id", JVal.s u.discord_id), ("username", optJ u.username),
        ("global_name", optJ u.global_name), ("avatar", optJ u.avatar)] [] := by
  unfold me
  cases extract_session_id cfg req with
  | none => exact Or.inl rfl
  | some sid =>
    dsimp only
    by_cases hse : sid = ""
    · rw [if_pos hse]
      exact Or.inl rfl
    · rw [if_neg hse]
      cases get_user_by_session w.sessions w.users sid with
      | none => exact Or.inr (Or.inl rfl)
      | some u => exact Or.inr (Or.inr ⟨u, rfl⟩)

/-- C8: `/me` answers 401 when no session cookie is present (or it is
empty) and when the session does not resolve; on success it returns
exactly the four public profile fields; and no body the handler can
produce carries a credential key — every key is one of `error`,
`discord_id`, `username`, `global_name`, `avatar`, never
`access_token`/`refresh_token`/`token`. -/
theorem me_spec (cfg : Config) (req : Req) (w : World) :
    (truthy (extract_session_id cfg req) = false →
      me cfg req w = Response.jsonResp 401 [("error", JVal.s "Not authenticated")] []) ∧
    (∀ sid, extract_session_id cfg req = some sid → sid ≠ "" →
      get_user_by_session w.sessions w.users sid = none →
      me cfg req w = Response.jsonResp 401 [("error", JVal.s "Invalid session")] []) ∧
    (∀ sid u, extract_session_id cfg req = some sid → sid ≠ "" →
      get_user_by_session w.sessions w.users sid = some u →
      me cfg req w = Response.jsonResp 200
        [("discord_id", JVal.s u.discord_id), ("username", optJ u.username),
          ("global_name", optJ u.global_name), ("avatar", optJ u.avatar)] []) ∧
    (∀ k v, (k, v) ∈ (me cfg req w).bodyOf →
      k = "error" ∨ k = "discord_id" ∨ k = "username" ∨ k = "global_name" ∨ k = "avatar") := by
  refine ⟨?_, ?_, ?_, ?_⟩
  · intro hfalse
    unfold me
    cases hsid : extract_session_id cfg req with
    | none => rfl
    | some sid =>
      dsimp only
      rw [hsid] at hfalse
      have hse : sid = "" := by
        simpa [truthy] using hfalse
      rw [if_pos hse]
  · intro sid hsid hse hlook
    unfold me
    rw [hsid]
    dsimp only
    rw [if_neg hse, hlook]
  · intro sid u hsid hse hlook
    unfold me
    rw [hsid]
    dsimp only
    rw [if_neg hse, hlook]
  · intro k v hm
    rcases me_cases cfg req w with h | h | ⟨u, h⟩ <;>
      rw [h] at hm <;> simp only [Response.bodyOf, List.mem_cons, List.mem_singleton,
        List.not_mem_nil, or_false, Prod.mk.injEq] at hm
    · exact Or.inl hm.1
    · exact Or.inl hm.1
    · rcases hm with hm | hm | hm | hm
      · exact Or.inr (Or.inl hm.1)
      · exact Or.inr (Or.inr (Or.inl hm.1))
      · exact Or.inr (Or.inr (Or.inr (Or.inl hm.1)))
      · exact Or.inr (Or.inr (Or.inr (Or.inr hm.1)))

/-- Concrete instance of C8: no cookie, an unknown session and a valid
session over one identity. -/
theorem me_spec_witness :
    me ⟨none, none, none, none, none, none, none⟩
        ⟨none, none, none, none, none, none, none, []⟩ ⟨[], [], []⟩ =
      Response.jsonResp 401 [("error", JVal.s "Not authenticated")] [] ∧
    me ⟨none, none, none, none, none, none, none⟩
        ⟨none, none, none, none, none, none, none, [("ledd_auth", "nosuch")]⟩ ⟨[], [], []⟩ =
      Response.jsonResp 401 [("error", JVal.s "Invalid session")] [] ∧
    me ⟨none, none, none, none, none, none, none⟩
        ⟨none, none, none, none, none, none, none, [("ledd_auth", "s1")]⟩
        ⟨[], [{ discord_id := "123", username := some "alice", global_name := none,
                avatar := some "av", discriminator := none, updated_at := 3,
                token := ⟨some "t", none, none, none, none⟩, created_at := 3 }],
          [⟨"s1", "123", 1⟩]⟩ =
      Response.jsonResp 200
        [("discord_id", JVal.s "123"), ("username", JVal.s "alice"),
          ("global_name", JVal.null), ("avatar", JVal.s "av")] [] := by
  have h1 := me_spec ⟨none, none, none, none, none, none, none⟩
    ⟨none, none, none, none, none, none, none, []⟩ ⟨[], [], []⟩
  have h2 := me_spec ⟨none, none, none, none, none, none, none⟩
    ⟨none, none, none, none, none, none, none, [("ledd_auth", "nosuch")]⟩ ⟨[], [], []⟩
  have h3 := me_spec ⟨none, none, none, none, none, none, none⟩
    ⟨none, none, none, none, none, none, none, [("ledd_auth", "s1")]⟩
    ⟨[], [{ discord_id := "123", username := some "alice", global_name := none,
            avatar := some "av", discriminator := none, updated_at := 3,
            token := ⟨some "t", none, none, none, none⟩, created_at := 3 }],
      [⟨"s1", "123", 1⟩]⟩
  refine ⟨h1.1 (by decide), h2.2.1 "nosuch" (by decide) (by decide) (by decide), ?_⟩
  exact (h3.2.2.1 "s1"
    { discord_id := "123", username := some "alice", global_name := none,
      avatar := some "av", discriminator := none, updated_at := 3,
      token := ⟨some "t", none, none, none, none⟩, created_at := 3 }
    (by decide) (by decide) (by decide)).trans (by decide)

/-! ## C9 -/

/-- The logout base response is a 200 JSON ack or a cookie-free
redirect. -/
theorem logoutBase_shape (cfg : Config) (req : Req) :
    logoutBase cfg req = Response.jsonResp 200 [("ok", JVal.b true)] [] ∨
    ∃ l, logoutBase cfg req = Response.redirectResp l [] := by
  unfold logoutBase
  cases pyOr req.args_continue req.header_referer with
  | none =>
    dsimp only
    split
    · exact Or.inr ⟨_, rfl⟩
    · exact Or.inl rfl
  | some c =>
    dsimp only
    split
    · exact Or.inr ⟨_, rfl⟩
    · split
      · exact Or.inr ⟨_, rfl⟩
      · exact Or.inl rfl

/-- C9: both logout handlers delete exactly the session named by a
(truthy) session cookie — and perform no Session Store deletion when no
cookie is present; both always answer with a success response (a
redirect or 200 JSON); and both always attach the clearing cookie:
empty value, epoch expiry 1970-01-01 (in the past), `max_age = 0`, and
the same name/domain/path attributes as every other session cookie. -/
theorem logout_spec (cfg : Config) (req : Req) (w : World) :
    ((logout cfg req w).1.cookiesOf = [clearCookie cfg] ∧
      (logout_get cfg req w).1.cookiesOf = [clearCookie cfg]) ∧
    ((clearCookie cfg).value = "" ∧ (clearCookie cfg).expires = some 0 ∧
      (clearCookie cfg).max_age = some 0 ∧ (clearCookie cfg).name = cookieName cfg ∧
      (clearCookie cfg).opts = cookie_settings cfg) ∧
    ((logout cfg req w).1.isSuccess = true ∧ (logout_get cfg req w).1.isSuccess = true) ∧
    ((logout cfg req w).2 = logoutDelete cfg req w ∧
      (logout_get cfg req w).2 = logoutDelete cfg req w) ∧
    (truthy (extract_session_id cfg req) = false → logoutDelete cfg req w = w) ∧
    (∀ sid, extract_session_id cfg req = some sid → sid ≠ "" →
      logoutDelete cfg req w = { w with sessions := (delete_session w.sessions sid).2 }) := by
  refine ⟨⟨?_, rfl⟩, ⟨rfl, rfl, rfl, rfl, rfl⟩, ⟨?_, rfl⟩, ⟨rfl, rfl⟩, ?_, ?_⟩
  · show (addCookie (logoutBase cfg req) (clearCookie cfg)).cookiesOf = [clearCookie cfg]
    rcases logoutBase_shape cfg req with h | ⟨l, h⟩ <;> rw [h] <;> rfl
  · show (addCookie (logoutBase cfg req) (clearCookie cfg)).isSuccess = true
    rcases logoutBase_shape cfg req with h | ⟨l, h⟩ <;> rw [h] <;> rfl
  · intro hfalse
    unfold logoutDelete
    cases hsid : extract_session_id cfg req with
    | none => rfl
    | some sid =>
      dsimp only
      rw [hsid] at hfalse
      have hse : sid = "" := by
        simpa [truthy] using hfalse
      rw [if_pos hse]
  · intro sid hsid hse
    unfold logoutDelete
    rw [hsid]
    dsimp only
    rw [if_neg hse]

/-- Concrete instance of C9: a logout with a cookie naming a stored
session (deleted), and one with no cookie (store untouched). -/
theorem logout_spec_witness :
    (logout ⟨none, none, none, none, none, none, none⟩
        ⟨none, none, none, none, none, none, none, [("ledd_auth", "s1")]⟩
        ⟨[], [], [⟨"s1", "123", 1⟩]⟩).1.cookiesOf =
      [clearCookie ⟨none, none, none, none, none, none, none⟩] ∧
    logoutDelete ⟨none, none, none, none, none, none, none⟩
        ⟨none, none, none, none, none, none, none, [("ledd_auth", "s1")]⟩
        ⟨[], [], [⟨"s1", "123", 1⟩]⟩ = ⟨[], [], []⟩ ∧
    logoutDelete ⟨none, none, none, none, none, none, none⟩
        ⟨none, none, none, none, none, none, none, []⟩
        ⟨[], [], [⟨"s1", "123", 1⟩]⟩ = ⟨[], [], [⟨"s1", "123", 1⟩]⟩ ∧
    (logout ⟨none, none, none, none, none, none, none⟩
        ⟨none, none, none, none, none, none, none, []⟩
        ⟨[], [], [⟨"s1", "123", 1⟩]⟩).1.isSuccess = true := by
  have h1 := logout_spec ⟨none, none, none, none, none, none, none⟩
    ⟨none, none, none, none, none, none, none, [("ledd_auth", "s1")]⟩
    ⟨[], [], [⟨"s1", "123", 1⟩]⟩
  have h2 := logout_spec ⟨none, none, none, none, none, none, none⟩
    ⟨none, none, none, none, none, none, none, []⟩
    ⟨[], [], [⟨"s1", "123", 1⟩]⟩
  refine ⟨h1.1.1, ?_, h2.2.2.2.2.1 (by decide), h2.2.2.1.1⟩
  exact (h1.2.2.2.2.2 "s1" (by decide) (by decide)).trans (by decide)

/-! ## C10 -/

/-- C10: the CSRF state is consumed before the outbound calls: with
valid configuration and parameters and a uniquely stored state, a
failing token exchange yields the generic 500 JSON error while the
state record is already deleted, the user and session collections are
untouched and no cookie is set; replaying the identical callback
afterwards yields the 400 invalid-state error rather than a fresh
upstream attempt. -/
theorem discord_callback_consume_before_upstream (cfg : Config) (req : Req) (o : Oracle)
    (w : World) (st : String) (sd : StateDoc)
    (hcid : truthy cfg.discord_client_id = true)
    (hcs : truthy cfg.discord_client_secret = true)
    (herr : truthy req.args_error = false)
    (hcode : truthy req.args_code = true)
    (hstate : req.args_state = some st) (hste : st ≠ "")
    (hnd : (w.states.map StateDoc.state).Nodup)
    (hmem : sd ∈ w.states) (hsdt : sd.state = st)
    (hup : o.tokenRes = Except.error ()) :
    discord_callback cfg req o w =
      (Response.jsonResp 500 [("error", JVal.s "OAuth flow failed")] [],
        { w with states := (consume_oauth_state w.states st).2 }) ∧
    (∀ d ∈ (consume_oauth_state w.states st).2, d.state ≠ st) ∧
    discord_callback cfg req o { w with states := (consume_oauth_state w.states st).2 } =
      (Response.jsonResp 400 [("error", JVal.s "Invalid or expired state")] [],
        { w with states := (consume_oauth_state w.states st).2 }) := by
  have hconf : ¬((!(truthy cfg.discord_client_id && truthy cfg.discord_client_secret)) = true) :=
    by rw [hcid, hcs]; simp
  have herr' : ¬(truthy req.args_error = true) := by rw [herr]; simp
  have hstt : truthy req.args_state = true := by
    rw [hstate]
    simpa [truthy] using hste
  have hcond : ¬((!(truthy req.args_code && truthy req.args_state)) = true) := by
    rw [hcode, hstt]
    simp
  have hgetd : req.args_state.getD "" = st := by rw [hstate]; rfl
  obtain ⟨hfst, hrest⟩ := consume_found w.states st sd hnd hmem hsdt
  refine ⟨?_, hrest, ?_⟩
  · unfold discord_callback
    rw [if_neg hconf, if_neg herr', if_neg hcond]
    dsimp only
    rw [hgetd, hfst, hup]
  · unfold discord_callback
    rw [if_neg hconf, if_neg herr', if_neg hcond]
    dsimp only
    rw [hgetd]
    have hnone : consume_oauth_state (consume_oauth_state w.states st).2 st =
        (none, (consume_oauth_state w.states st).2) := consume_not_found _ st hrest
    rw [hnone]

/-- Concrete instance of C10: a one-record state store, a failing token
exchange, then a replay of the same callback. -/
theorem discord_callback_consume_before_upstream_witness :
    discord_callback ⟨some "id", some "sec", none, none, none, none, none⟩
        ⟨some "abc", some "tok1", none, none, none, none, none, []⟩
        ⟨Except.error (), Except.error (), "sid", 0⟩
        ⟨[⟨"tok1", some "https://ledd.live/me", 0⟩], [], []⟩ =
      (Response.jsonResp 500 [("error", JVal.s "OAuth flow failed")] [],
        ⟨[], [], []⟩) ∧
    discord_callback ⟨some "id", some "sec", none, none, none, none, none⟩
        ⟨some "abc", some "tok1", none, none, none, none, none, []⟩
        ⟨Except.error (), Except.error (), "sid", 0⟩ ⟨[], [], []⟩ =
      (Response.jsonResp 400 [("error", JVal.s "Invalid or expired state")] [],
        ⟨[], [], []⟩) := by
  have h := discord_callback_consume_before_upstream
    ⟨some "id", some "sec", none, none, none, none, none⟩
    ⟨some "abc", some "tok1", none, none, none, none, none, []⟩
    ⟨Except.error (), Except.error (), "sid", 0⟩
    ⟨[⟨"tok1", some "https://ledd.live/me", 0⟩], [], []⟩ "tok1"
    ⟨"tok1", some "https://ledd.live/me", 0⟩
    (by decide) (by decide) (by decide) (by decide) rfl (by decide) (by decide) (by decide)
    rfl rfl
  exact ⟨h.1.trans (by decide), (h.2.2).trans (by decide)⟩

end Leddweb
